import Mathlib

/-!
Verification of the remux HTTP router (remux.go).

The router matches an incoming request against an ordered list of compiled
regular-expression patterns, using the raw request target
(Request.RequestURI).  The regexp engine is an external black box: a
compiled pattern is modelled by its observable interface, namely
FindStringSubmatch (empty list = no match) and SubexpNames, together with
the documented regexp invariant that on a match the submatch list has one
entry per subexpression name.  net/url is modelled byte-exactly:
QueryEscape escapes bytes per RFC 3986 query-component rules and
Values.Encode sorts by key.
-/

/-- Model of a compiled `regexp.Regexp`.  `FindStringSubmatch` returns the
list of submatches (whole match first); an empty list means no match.
`SubexpNames` returns one name per group, the whole match named "".
`find_length` is the regexp library invariant: on a match, the number of
submatches equals the number of subexpression names. -/
structure Pattern where
  FindStringSubmatch : String → List String
  SubexpNames : List String
  find_length : ∀ s, FindStringSubmatch s ≠ [] →
    (FindStringSubmatch s).length = SubexpNames.length

/-- Model of `remux.Handler`: a compiled pattern, the optional
allowed-methods set (`none` models the nil map; Go also treats a non-nil
empty map as a restriction), and the wrapped `http.Handler`, opaque here
and identified by a numeric tag. -/
structure Handler where
  pattern : Pattern
  allowedMethods : Option (List String)
  handler : Nat

/-- Model of `remux.Remux`: the optional not-found fallback (opaque,
identified by a numeric tag) and the ordered route table. -/
structure Remux where
  NotFoundHandler : Option Nat
  handlers : List Handler

/-- The slice of an `*http.Request` the router reads and writes:
`RequestURI` (raw request target, matched verbatim), `Method`, and
`URL.RawQuery` (mutated by parameter injection). -/
structure Request where
  RequestURI : String
  Method : String
  RawQuery : String
deriving DecidableEq, Repr

/-- The uppercase hexadecimal digit for `n < 16`, as in net/url escaping. -/
def upperhex (n : Nat) : Char :=
  if n < 10 then Char.ofNat (48 + n) else Char.ofNat (55 + n)

/-- Escaping of one byte per Go `url.QueryEscape`: ASCII alphanumerics and
`-_.~` are kept, a space becomes `+`, every other byte becomes `%XX` with
uppercase hex. -/
def escapeByte (b : UInt8) : String :=
  let n := b.toNat
  if (65 ≤ n ∧ n ≤ 90) ∨ (97 ≤ n ∧ n ≤ 122) ∨ (48 ≤ n ∧ n ≤ 57)
      ∨ n = 45 ∨ n = 95 ∨ n = 46 ∨ n = 126 then
    String.singleton (Char.ofNat n)
  else if n = 32 then "+"
  else "%" ++ String.singleton (upperhex (n / 16)) ++ String.singleton (upperhex (n % 16))

/-- The UTF-8 byte sequence of a string, the unfolding of the model of
`String.toUTF8` (`s.data.flatMap utf8EncodeChar`). -/
def stringBytes (s : String) : List UInt8 :=
  s.data.flatMap String.utf8EncodeChar

/-- Model of Go `url.QueryEscape`: escape the UTF-8 bytes of `s` one by
one. -/
def QueryEscape (s : String) : String :=
  String.join ((stringBytes s).map escapeByte)

/-- Lexicographic comparison of strings as character lists by codepoint;
UTF-8 encoding preserves codepoint order, so this is the byte-wise string
order Go `sort.Strings` uses. -/
def strLeChars : List Char → List Char → Bool
  | [], _ => true
  | _ :: _, [] => false
  | c :: cs, d :: ds =>
    if c.toNat = d.toNat then strLeChars cs ds
    else decide (c.toNat < d.toNat)

/-- Byte-wise string order, see `strLeChars`. -/
def strLe (s t : String) : Bool :=
  strLeChars s.data t.data

/-- Insert a string into a sorted list, keeping it sorted (helper for the
key sort performed by `url.Values.Encode`). -/
def insertSorted (s : String) : List String → List String
  | [] => [s]
  | t :: ts => if strLe s t then s :: t :: ts else t :: insertSorted s ts

/-- Insertion sort on strings, modelling `sort.Strings` inside
`url.Values.Encode` (keys are distinct, so stability is irrelevant). -/
def sortStrings : List String → List String
  | [] => []
  | s :: ss => insertSorted s (sortStrings ss)

/-- First-occurrence deduplication, modelling the distinct key set of the
`url.Values` map. -/
def dedupKeys : List String → List String
  | [] => []
  | k :: ks => k :: (dedupKeys ks).filter (fun x => x ≠ k)

/-- Model of `url.Values` built by repeated `Add` calls: the list of
(key, value) pairs in insertion order.  `Add` appends, so per-key value
order is insertion order. -/
def Values.Encode (params : List (String × String)) : String :=
  let keys := sortStrings (dedupKeys (params.map Prod.fst))
  String.intercalate "&"
    (List.flatten (keys.map (fun k =>
      (params.filter (fun p => p.1 == k)).map
        (fun p => QueryEscape k ++ "=" ++ QueryEscape p.2))))

/-- The parameter list built by the `for i := range names` loop of
`ServeHTTP`: one pair per subexpression, key `":" + names[i]`, value
`submatches[i]`.  `zip` is index-wise pairing; by `Pattern.find_length`
both lists have the same length on a match, exactly the indices the Go
loop touches. -/
def buildParams (names submatches : List String) : List (String × String) :=
  (names.zip submatches).map (fun p => (":" ++ p.1, p.2))

/-- The parameters `ServeHTTP` injects for a route matched at `uri`. -/
def injectedParams (h : Handler) (uri : String) : List (String × String) :=
  buildParams h.pattern.SubexpNames (h.pattern.FindStringSubmatch uri)

/-- The method check of `ServeHTTP`: a nil allowed-methods map accepts
every method, otherwise the method must be a member. -/
def methodAllowed (h : Handler) (m : String) : Bool :=
  match h.allowedMethods with
  | none => true
  | some ms => ms.contains m

/-- Everything `ServeHTTP` can do with one request.  `invoked` carries the
tag of the matched route handler and the request after parameter
injection; `methodNotAllowed` is the 405 short-circuit (status only, no
body); `fallbackInvoked` delegates to the configured not-found handler;
`notFoundDefault` is `http.NotFound`.  The three latter carry the request
as the handler (or response writer) observes it. -/
inductive Outcome where
  | invoked (handlerId : Nat) (req : Request)
  | methodNotAllowed (req : Request)
  | fallbackInvoked (handlerId : Nat) (req : Request)
  | notFoundDefault (req : Request)
deriving DecidableEq, Repr

/-- The match-and-invoke arm of `ServeHTTP`: build the parameters, prepend
their encoding (plus a `&` separator) to `RawQuery`, invoke the handler
with the mutated request. -/
def invokeRoute (h : Handler) (req : Request) : Outcome :=
  .invoked h.handler
    { req with
      RawQuery := Values.Encode (injectedParams h req.RequestURI) ++ "&" ++ req.RawQuery }

/-- The body of the `for _, h := range r.handlers` loop of `ServeHTTP`:
skip a route whose pattern yields no submatches, answer 405 when the
route restricts methods and the request method is absent, otherwise
inject parameters and invoke.  `none` means the loop fell through. -/
def serveLoop (req : Request) : List Handler → Option Outcome
  | [] => none
  | h :: rest =>
    let submatches := h.pattern.FindStringSubmatch req.RequestURI
    if submatches.length == 0 then
      serveLoop req rest
    else if !(methodAllowed h req.Method) then
      some (.methodNotAllowed req)
    else
      some (invokeRoute h req)

/-- Model of `Remux.ServeHTTP`: run the route loop; when no route matches,
delegate to `NotFoundHandler` when set, else `http.NotFound`. -/
def Remux.ServeHTTP (r : Remux) (req : Request) : Outcome :=
  match serveLoop req r.handlers with
  | some o => o
  | none =>
    match r.NotFoundHandler with
    | some nf => .fallbackInvoked nf req
    | none => .notFoundDefault req

/-- Model of `Remux.Handle`: compile the pattern through the external
regexp capability (`none` models a `regexp.MustCompile` panic), append one
route with a nil method set, return the new route.  The Go method returns
a pointer into the table; the model returns the updated table and the
route. -/
def Remux.Handle (compile : String → Option Pattern) (r : Remux)
    (regex : String) (handlerId : Nat) : Option (Remux × Handler) :=
  match compile regex with
  | none => none
  | some p =>
    let h : Handler := ⟨p, none, handlerId⟩
    some ({ r with handlers := r.handlers ++ [h] }, h)

/-- Does the pattern of `h` match the raw request target of `req`
(`len(submatches) != 0`)? -/
def routeMatches (req : Request) (h : Handler) : Bool :=
  !(h.pattern.FindStringSubmatch req.RequestURI).isEmpty

/-- The outcome `ServeHTTP` produces once `h` is the selected route:
either the 405 short-circuit or the match-and-invoke arm. -/
def routeOutcome (h : Handler) (req : Request) : Outcome :=
  if !(methodAllowed h req.Method) then .methodNotAllowed req
  else invokeRoute h req

/-! ### Shared lemmas about the dispatch loop -/

/-- The loop of `ServeHTTP` is first-match selection: it produces the
outcome of the first route whose pattern matches, and `none` when no route
matches. -/
theorem serveLoop_eq_find (req : Request) (hs : List Handler) :
    serveLoop req hs = (hs.find? (routeMatches req)).map (fun h => routeOutcome h req) := by
  induction hs with
  | nil => rfl
  | cons h rest ih =>
    cases hfind : h.pattern.FindStringSubmatch req.RequestURI with
    | nil => simp [serveLoop, hfind, List.find?, routeMatches, ih]
    | cons a as =>
      simp only [serveLoop, hfind, List.find?, routeMatches, routeOutcome,
        List.isEmpty_cons, Bool.not_false, List.length_cons]
      rw [if_neg (by simp)]
      split <;> simp_all

/-- `find?` returns the element at the first index whose predicate holds. -/
theorem find?_of_first {α : Type} (p : α → Bool) :
    ∀ (l : List α) (i : Nat) (hi : i < l.length),
      (∀ j (hj : j < i), p (l.get ⟨j, Nat.lt_trans hj hi⟩) = false) →
      p (l.get ⟨i, hi⟩) = true → l.find? p = some (l.get ⟨i, hi⟩)
  | [], i, hi, _, _ => absurd hi (by simp)
  | x :: xs, 0, _, _, hmatch => by
      simp only [List.get] at hmatch
      simp [List.find?, hmatch]
  | x :: xs, (n+1), hi, hfirst, hmatch => by
      have hx : p x = false := hfirst 0 (Nat.succ_pos n)
      have ih := find?_of_first p xs n (Nat.lt_of_succ_lt_succ hi)
        (fun j hj => hfirst (j+1) (Nat.succ_lt_succ hj)) hmatch
      simp [List.find?, hx, ih]

/-- Every index below the common length of `names` and `submatches`
contributes its pair to `buildParams`. -/
theorem buildParams_mem :
    ∀ (names subs : List String) (i : Nat) (hi : i < names.length),
      names.length = subs.length →
      (":" ++ names.get ⟨i, hi⟩, subs.getD i "") ∈ buildParams names subs
  | [], _, i, hi, _ => absurd hi (by simp)
  | n :: ns, [], _, _, hlen => by simp at hlen
  | n :: ns, s :: ss, 0, _, _ => by simp [buildParams]
  | n :: ns, s :: ss, (i+1), hi, hlen => by
      have ih := buildParams_mem ns ss i (Nat.lt_of_succ_lt_succ hi) (Nat.succ.inj hlen)
      simp only [buildParams, List.zip, List.zipWith, List.map, List.mem_cons] at ih ⊢
      exact Or.inr ih

/-- A `some` result of the dispatch loop is either a handler invocation or
the 405 short-circuit carrying the untouched request. -/
theorem serveLoop_cases (req : Request) (hs : List Handler) (o : Outcome)
    (h : serveLoop req hs = some o) :
    (∃ hid q, o = .invoked hid q) ∨ o = .methodNotAllowed req := by
  induction hs with
  | nil => simp [serveLoop] at h
  | cons hd rest ih =>
    cases hfind : hd.pattern.FindStringSubmatch req.RequestURI with
    | nil =>
      simp only [serveLoop, hfind, List.length_nil] at h
      exact ih (by simpa using h)
    | cons a as =>
      simp only [serveLoop, hfind] at h
      by_cases hm : methodAllowed hd req.Method
      · simp [hm, invokeRoute] at h
        exact Or.inl ⟨hd.handler, _, h.symm⟩
      · simp [hm] at h
        exact Or.inr h.symm

/-! ### Concrete patterns and routes used to exercise the theorems -/

/-- A matcher behaving like a fully anchored literal pattern (no capture
groups beyond the whole match), a valid instance of the regexp
capability. -/
def patLit (lit : String) : Pattern where
  FindStringSubmatch := fun s => if s = lit then [lit] else []
  SubexpNames := [""]
  find_length := by
    intro s h
    by_cases hs : s = lit
    · simp [hs]
    · simp [hs] at h

/-- A matcher behaving like the pattern `/hello/(?P<name>.+)` of the
repository example, shown here on the single target `/hello/Cenk`. -/
def patNamed : Pattern where
  FindStringSubmatch := fun s => if s = "/hello/Cenk" then ["/hello/Cenk", "Cenk"] else []
  SubexpNames := ["", "name"]
  find_length := by
    intro s h
    by_cases hs : s = "/hello/Cenk"
    · simp [hs]
    · simp [hs] at h

/-- First registered route on `/asdf`, unrestricted. -/
def routeOne : Handler := ⟨patLit "/asdf", none, 1⟩

/-- Second registered route on `/asdf`, unrestricted: also matches, must
never be chosen before `routeOne`. -/
def routeTwo : Handler := ⟨patLit "/asdf", none, 2⟩

/-- Route on `/asdf` restricted to GET. -/
def routeGet : Handler := ⟨patLit "/asdf", some ["GET"], 5⟩

/-- Route with the named group of the repository example. -/
def routeNamed : Handler := ⟨patNamed, none, 3⟩

/-- A GET request for `/asdf` with an existing query string. -/
def reqAsdf : Request := ⟨"/asdf", "GET", "a=1"⟩

/-- A POST request for `/asdf` with an existing query string. -/
def reqPost : Request := ⟨"/asdf", "POST", "a=1"⟩

/-- A GET request for `/hello/Cenk` with an empty query string. -/
def reqHello : Request := ⟨"/hello/Cenk", "GET", ""⟩

/-- Router with two competing routes for `/asdf`. -/
def remuxTwo : Remux := ⟨none, [routeOne, routeTwo]⟩

/-- Router whose first matching route allows only GET; a later route would
accept any method but must never be reached. -/
def remux405 : Remux := ⟨none, [routeGet, routeTwo]⟩

/-- Router of the repository example route. -/
def remuxHello : Remux := ⟨none, [routeNamed]⟩

/-- Router with no routes and no fallback. -/
def remuxEmpty : Remux := ⟨none, []⟩

/-- Router with no routes and a configured fallback. -/
def remuxFallback : Remux := ⟨some 9, []⟩

/-! ### The claims -/

/-- Claim C1: `ServeHTTP` selects the first route in registration order
whose pattern matches the raw request target `Request.RequestURI`, and
never a later one, even when a later pattern would also match: whenever
every route before index `i` fails to match and the route at `i` matches,
the dispatch outcome is exactly the outcome of the route at `i`. -/
theorem first_match_wins (r : Remux) (req : Request) (i : Nat)
    (hi : i < r.handlers.length)
    (hfirst : ∀ j (hj : j < i),
      routeMatches req (r.handlers.get ⟨j, Nat.lt_trans hj hi⟩) = false)
    (hmatch : routeMatches req (r.handlers.get ⟨i, hi⟩) = true) :
    r.ServeHTTP req = routeOutcome (r.handlers.get ⟨i, hi⟩) req := by
  have hfind := find?_of_first (routeMatches req) r.handlers i hi hfirst hmatch
  unfold Remux.ServeHTTP
  rw [serveLoop_eq_find, hfind]
  rfl

/-- Witness for C1: with two registered routes both matching `/asdf`, the
first one (registration order) is selected. -/
theorem first_match_wins_witness :
    remuxTwo.ServeHTTP reqAsdf = routeOutcome routeOne reqAsdf :=
  first_match_wins remuxTwo reqAsdf 0 (by decide)
    (fun j hj => absurd hj (Nat.not_lt_zero j)) rfl

/-- Claim C2: when the first matching route carries a non-empty
allowed-methods set that does not contain the request method, `ServeHTTP`
answers the 405 short-circuit with the untouched request (status only, no
body), regardless of every later route and of the not-found fallback. -/
theorem method_not_allowed_short_circuit (r : Remux) (req : Request)
    (h : Handler) (ms : List String)
    (hfind : r.handlers.find? (routeMatches req) = some h)
    (hms : h.allowedMethods = some ms) (_hne : ms ≠ [])
    (hnm : ms.contains req.Method = false) :
    r.ServeHTTP req = .methodNotAllowed req := by
  have hma : methodAllowed h req.Method = false := by
    simp only [methodAllowed, hms]
    exact hnm
  unfold Remux.ServeHTTP
  rw [serveLoop_eq_find, hfind]
  simp [routeOutcome, hma]

/-- Witness for C2: the first matching route allows only GET, the request
is a POST, a later route would accept it; the outcome is the 405
short-circuit. -/
theorem method_not_allowed_short_circuit_witness :
    remux405.ServeHTTP reqPost = .methodNotAllowed reqPost :=
  method_not_allowed_short_circuit remux405 reqPost routeGet ["GET"]
    rfl rfl (by decide) rfl

/-- Claim C3: on the match-and-invoke path, every subexpression of the
matched pattern — the whole match at index 0 and every further group —
contributes the parameter `":" ++ name` with the captured substring as
value to the injected parameter list. -/
theorem every_group_injected (h : Handler) (uri : String)
    (hm : h.pattern.FindStringSubmatch uri ≠ [])
    (i : Nat) (hi : i < h.pattern.SubexpNames.length) :
    (":" ++ h.pattern.SubexpNames.get ⟨i, hi⟩,
      (h.pattern.FindStringSubmatch uri).getD i "") ∈ injectedParams h uri := by
  have hlen := h.pattern.find_length uri hm
  exact buildParams_mem h.pattern.SubexpNames (h.pattern.FindStringSubmatch uri)
    i hi hlen.symm

/-- Witness for C3: the named group `name` capturing `Cenk` in
`/hello/Cenk` yields the parameter `:name = Cenk`. -/
theorem every_group_injected_witness :
    ((":name", "Cenk") : String × String) ∈ injectedParams routeNamed "/hello/Cenk" :=
  every_group_injected routeNamed "/hello/Cenk" (by decide) 1 (by decide)

/-- Claim C4: on every match-and-invoke outcome the final raw query is the
encoding of the injected parameters, one `&`, then the original raw query
verbatim — including the empty original query, which leaves a trailing
`&`. -/
theorem injected_query_prepended (r : Remux) (req : Request) (h : Handler)
    (hfind : r.handlers.find? (routeMatches req) = some h)
    (hok : methodAllowed h req.Method = true) :
    r.ServeHTTP req = .invoked h.handler
      { req with RawQuery :=
          Values.Encode (injectedParams h req.RequestURI) ++ "&" ++ req.RawQuery } := by
  unfold Remux.ServeHTTP
  rw [serveLoop_eq_find, hfind]
  simp [routeOutcome, hok, invokeRoute]

/-- Witness for C4: dispatching `/hello/Cenk` with an empty original query
invokes handler 3 with the injected encoding followed by the trailing
`&`. -/
theorem injected_query_prepended_witness :
    remuxHello.ServeHTTP reqHello =
      .invoked 3 ⟨"/hello/Cenk", "GET", "%3A=%2Fhello%2FCenk&%3Aname=Cenk&"⟩ := by
  rw [injected_query_prepended remuxHello reqHello routeNamed rfl rfl]
  decide

/-- Encoding of the parameter pairs in their given order, following the
claim wording for C5 (injected parameters in subexpression order: whole
match first, then groups in order of appearance), to be compared with
`Values.Encode` as the code computes it. -/
def specOrderEncode (params : List (String × String)) : String :=
  String.intercalate "&"
    (params.map (fun p => QueryEscape p.1 ++ "=" ++ QueryEscape p.2))

/-- Counterexample to C5: for subexpression names `["", "b", "a"]` with
captures `["x", "y", "z"]` the code's injected string orders the pairs by
sorted key (`url.Values.Encode` sorts), which differs from the
subexpression order the claim states. -/
theorem subexp_order_counterexample :
    Values.Encode (buildParams ["", "b", "a"] ["x", "y", "z"]) ≠
      specOrderEncode (buildParams ["", "b", "a"] ["x", "y", "z"]) := by
  decide

/-- Claim C5 as amended: the injected parameters are the percent-encoded
`":" ++ name = capture` pairs ordered lexicographically by key, values of
one key in capture order; for the spec example `["", "name"]` with
captures `["/hello/Cenk", "Cenk"]` the sorted order coincides with
subexpression order, giving `%3A=%2Fhello%2FCenk&%3Aname=Cenk` (the
percent-encoding of `:=/hello/Cenk&:name=Cenk`), while names
`["", "b", "a"]` with captures `["x", "y", "z"]` encode key-sorted as
`%3A=x&%3Aa=z&%3Ab=y`. -/
theorem injected_encoding_key_sorted :
    Values.Encode (buildParams ["", "name"] ["/hello/Cenk", "Cenk"]) =
        "%3A=%2Fhello%2FCenk&%3Aname=Cenk" ∧
      Values.Encode (buildParams ["", "b", "a"] ["x", "y", "z"]) =
        "%3A=x&%3Aa=z&%3Ab=y" :=
  ⟨by decide, by decide⟩

/-- Claim C6: when no registered route matches, the configured fallback is
invoked (and the default not-found outcome is never produced), and with no
fallback configured the default not-found outcome is produced; with zero
routes this holds for every request. -/
theorem unmatched_delegates_not_found (r : Remux) (req : Request)
    (hnone : r.handlers.find? (routeMatches req) = none) :
    (∀ nf, r.NotFoundHandler = some nf →
        r.ServeHTTP req = .fallbackInvoked nf req) ∧
      (r.NotFoundHandler = none → r.ServeHTTP req = .notFoundDefault req) := by
  have hmain : serveLoop req r.handlers = none := by
    rw [serveLoop_eq_find, hnone]
    rfl
  refine ⟨fun nf hnf => ?_, fun hnf => ?_⟩
  · simp [Remux.ServeHTTP, hmain, hnf]
  · simp [Remux.ServeHTTP, hmain, hnf]

/-- Witness for C6: with zero registered routes, the router without a
fallback produces the default not-found outcome and the router with
fallback 9 invokes it. -/
theorem unmatched_delegates_not_found_witness :
    remuxEmpty.ServeHTTP reqAsdf = .notFoundDefault reqAsdf ∧
      remuxFallback.ServeHTTP reqAsdf = .fallbackInvoked 9 reqAsdf :=
  ⟨(unmatched_delegates_not_found remuxEmpty reqAsdf rfl).2 rfl,
    (unmatched_delegates_not_found remuxFallback reqAsdf rfl).1 9 rfl⟩

/-- Claim C7: `Handle` aborts (the `regexp.MustCompile` panic, modelled as
`none`) exactly when the pattern fails to compile; on success it appends
exactly one route with no method restriction to the end of the table,
returns that route, and leaves the previous routes and the fallback
unchanged. -/
theorem handle_appends_route (compile : String → Option Pattern) (r : Remux)
    (regex : String) (hid : Nat) :
    (Remux.Handle compile r regex hid = none ↔ compile regex = none) ∧
      (∀ p, compile regex = some p →
        Remux.Handle compile r regex hid =
          some ({ r with handlers := r.handlers ++ [⟨p, none, hid⟩] },
            ⟨p, none, hid⟩)) := by
  constructor
  · cases hc : compile regex <;> simp [Remux.Handle, hc]
  · intro p hp
    simp [Remux.Handle, hp]

/-- A compile capability for the witness of C7: succeeds on `/asdf` with
the literal matcher, fails on the unbalanced pattern `(`. -/
def testCompile (s : String) : Option Pattern :=
  if s = "/asdf" then some (patLit "/asdf") else none

/-- Witness for C7: registering the pattern `(` aborts; registering
`/asdf` on the empty router appends the single unrestricted route and
returns it. -/
theorem handle_appends_route_witness :
    Remux.Handle testCompile ⟨none, []⟩ "(" 1 = none ∧
      Remux.Handle testCompile ⟨none, []⟩ "/asdf" 2 =
        some (⟨none, [⟨patLit "/asdf", none, 2⟩]⟩, ⟨patLit "/asdf", none, 2⟩) :=
  ⟨(handle_appends_route testCompile ⟨none, []⟩ "(" 1).1.mpr rfl,
    (handle_appends_route testCompile ⟨none, []⟩ "/asdf" 2).2
      (patLit "/asdf") rfl⟩

/-- Is the outcome a matched-handler invocation? -/
def Outcome.isInvoked : Outcome → Bool
  | .invoked _ _ => true
  | _ => false

/-- Is the outcome the 405 short-circuit? -/
def Outcome.isMethodNotAllowed : Outcome → Bool
  | .methodNotAllowed _ => true
  | _ => false

/-- Is the outcome a not-found delegation (configured fallback or default
not-found response)? -/
def Outcome.isNotFoundDelegation : Outcome → Bool
  | .fallbackInvoked _ _ => true
  | .notFoundDefault _ => true
  | _ => false

/-- The request as the selected handler or response path observes it. -/
def Outcome.request : Outcome → Request
  | .invoked _ q => q
  | .methodNotAllowed q => q
  | .fallbackInvoked _ q => q
  | .notFoundDefault q => q

/-- Claim C8: every dispatch produces exactly one of the three outcomes —
matched-handler invocation, method-not-allowed short-circuit, not-found
delegation — never more than one and never none. -/
theorem exactly_one_outcome (r : Remux) (req : Request) :
    cond (r.ServeHTTP req).isInvoked 1 0
        + cond (r.ServeHTTP req).isMethodNotAllowed 1 0
        + cond (r.ServeHTTP req).isNotFoundDelegation 1 0 = 1 := by
  cases h : r.ServeHTTP req <;>
    simp [Outcome.isInvoked, Outcome.isMethodNotAllowed, Outcome.isNotFoundDelegation]

/-- Claim C9: dispatch is deterministic — two structurally identical
requests against the same route table produce the same outcome: the same
selected handler, the same 405 or not-found decision, and the same
injected parameters. -/
theorem dispatch_deterministic (r : Remux) (req₁ req₂ : Request)
    (h : req₁ = req₂) : r.ServeHTTP req₁ = r.ServeHTTP req₂ := by
  rw [h]

/-- Witness for C9: two copies of the same request through the example
router produce the same outcome. -/
theorem dispatch_deterministic_witness :
    remuxHello.ServeHTTP reqHello = remuxHello.ServeHTTP reqHello :=
  dispatch_deterministic remuxHello reqHello reqHello rfl

/-- Claim C10: whenever the outcome is not a handler invocation — the 405
short-circuit as well as both not-found delegations — the request is left
untouched, in particular its raw query string: parameter injection happens
only on the invocation path, and the 405 check precedes any injection. -/
theorem no_injection_without_invocation (r : Remux) (req : Request)
    (h : (r.ServeHTTP req).isInvoked = false) :
    (r.ServeHTTP req).request = req := by
  unfold Remux.ServeHTTP at h ⊢
  cases hl : serveLoop req r.handlers with
  | some o =>
    rcases serveLoop_cases req r.handlers o hl with ⟨hid, q, ho⟩ | ho
    · subst ho
      rw [hl] at h
      simp [Outcome.isInvoked] at h
    · subst ho
      rfl
  | none =>
    cases hnf : r.NotFoundHandler <;> rfl

/-- Witness for C10: the 405 short-circuit for the POST to the GET-only
route leaves the query string `a=1` unchanged. -/
theorem no_injection_without_invocation_witness :
    (remux405.ServeHTTP reqPost).request = reqPost :=
  no_injection_without_invocation remux405 reqPost rfl
